import Mathlib

/-!
Verification development for the Arena combat-simulation package.

The definitions below are a shallow embedding of the Python sources under
src/python/arena (dice.py, monster.py, character.py, equipment.py, party.py,
arena.py).  Python machine integers are modelled as Int (Nat where the source
value is provably non-negative), dictionaries as total functions, None-able
references as Option, and code that raises as Except.  The global random
module is modelled as an explicitly threaded generator state of type Nat
together with a step function passed as a parameter; this reflects the single
shared, seedable generator that the sources draw from.
-/

/-- Dice group (dice.py, class Dice): number of dice, sides per die,
multiplier (negative encodes a divisor) and addition. -/
structure Dice where
  number : Nat
  sides : Nat
  multiplier : Int
  addition : Int
deriving DecidableEq

/-- Modelled from the spec: the random module is an injectable, seedable
generator.  A generator implementation is a step function from state to a raw
natural number and a successor state; the state itself is a Nat. -/
def randNext (next : Nat → Nat × Nat) (g : Nat) : Nat × Nat := next g

/-- Modelled from the spec: random.randint(lo, hi) returns a value in
[lo, hi] determined by the generator state, advancing the state. -/
def randint (next : Nat → Nat × Nat) (lo hi : Nat) (g : Nat) : Nat × Nat :=
  (lo + (next g).1 % (hi + 1 - lo), (next g).2)

/-- Sum of `n` draws of randint(1, sides) (the generator comprehension inside
Dice.roll), threading the generator state. -/
def rollSumDice (next : Nat → Nat × Nat) (sides : Nat) : Nat → Nat → Nat × Nat
  | 0, g => (0, g)
  | n + 1, g =>
    ((randint next 1 sides g).1 + (rollSumDice next sides n (randint next 1 sides g).2).1,
     (rollSumDice next sides n (randint next 1 sides g).2).2)

/-- The arithmetic applied after the raw die sum, shared verbatim by
Dice.roll, Dice.max_roll and Dice.min_roll in dice.py: positive multiplier
multiplies, negative multiplier floor-divides by its magnitude, then the
addition is applied and the result is clamped to be non-negative.  The running
value is non-negative until the addition step, so the Python floor division
is Nat division here. -/
def dicePipeline (m a : Int) (base : Nat) : Int :=
  max ((((if 0 < m then base * m.toNat
          else if m < 0 then base / m.natAbs
          else base) : Nat) : Int) + a) 0

/-- Dice.roll: draw number dice in [1, sides], sum, apply multiplier or
divisor, apply addition, clamp at zero (dice.py lines 89-108). -/
def diceRoll (next : Nat → Nat × Nat) (d : Dice) (g : Nat) : Int × Nat :=
  (dicePipeline d.multiplier d.addition (rollSumDice next d.sides d.number g).1,
   (rollSumDice next d.sides d.number g).2)

/-- Dice.max_roll: the same arithmetic with sides as the value of every die. -/
def maxRoll (d : Dice) : Int :=
  dicePipeline d.multiplier d.addition (d.number * d.sides)

/-- Dice.min_roll: the same arithmetic with 1 as the value of every die. -/
def minRoll (d : Dice) : Int :=
  dicePipeline d.multiplier d.addition d.number

/-- Numeric value of a run of decimal digit characters (the int() calls in
Dice.from_string). -/
def natOfDigits (l : List Char) : Nat :=
  l.foldl (fun a c => a * 10 + (c.toNat - 48)) 0

/-- Python str.strip(): remove whitespace from both ends. -/
def pyStrip (s : String) : List Char :=
  ((s.toList.dropWhile Char.isWhitespace).reverse.dropWhile Char.isWhitespace).reverse

/-- The optional multiplier group of the Dice.from_string regular expression.
If the next character is a star or slash followed by at least one digit, the
group is consumed greedily, a slash encoding a negative (divisor) multiplier;
otherwise the whole group is skipped and the input is left in place. -/
def parseMultGroup : List Char → Int × List Char
  | '*' :: r =>
    if (r.takeWhile Char.isDigit).isEmpty then (1, '*' :: r)
    else ((natOfDigits (r.takeWhile Char.isDigit) : Int), r.dropWhile Char.isDigit)
  | '/' :: r =>
    if (r.takeWhile Char.isDigit).isEmpty then (1, '/' :: r)
    else (-(natOfDigits (r.takeWhile Char.isDigit) : Int), r.dropWhile Char.isDigit)
  | r => (1, r)

/-- The optional addition group of the Dice.from_string regular expression:
a plus or minus sign followed by at least one digit, otherwise skipped. -/
def parseAddGroup : List Char → Int
  | '+' :: r =>
    if (r.takeWhile Char.isDigit).isEmpty then 0
    else (natOfDigits (r.takeWhile Char.isDigit) : Int)
  | '-' :: r =>
    if (r.takeWhile Char.isDigit).isEmpty then 0
    else -(natOfDigits (r.takeWhile Char.isDigit) : Int)
  | _ => 0

/-- Dice.from_string (dice.py lines 36-87): strip the input, then match the
anchored, case-insensitive regular expression digits* d digits+ with two
optional trailing groups.  re.match only anchors the start, so characters
after the matched prefix are ignored.  A failed match raises ValueError,
modelled as Except.error. -/
def diceFromString (s : String) : Except String Dice :=
  match (pyStrip s).dropWhile Char.isDigit with
  | [] => Except.error ("Invalid dice string: " ++ s)
  | c :: rest1 =>
    if c = 'd' ∨ c = 'D' then
      if (rest1.takeWhile Char.isDigit).isEmpty then
        Except.error ("Invalid dice string: " ++ s)
      else
        Except.ok
          { number :=
              if ((pyStrip s).takeWhile Char.isDigit).isEmpty then 1
              else natOfDigits ((pyStrip s).takeWhile Char.isDigit),
            sides := natOfDigits (rest1.takeWhile Char.isDigit),
            multiplier := (parseMultGroup (rest1.dropWhile Char.isDigit)).1,
            addition := parseAddGroup (parseMultGroup (rest1.dropWhile Char.isDigit)).2 }
    else Except.error ("Invalid dice string: " ++ s)

/-- True when Dice.from_string succeeds on the given text. -/
def parseSucceeds (s : String) : Bool :=
  match diceFromString s with
  | Except.ok _ => true
  | Except.error _ => false

/-- Characterisation of the strings accepted by the implementation: after
stripping, an optional digit run followed by the letter d (either case)
followed by at least one digit.  Everything after that point is ignored. -/
def diceHeadMatches (s : String) : Bool :=
  match (pyStrip s).dropWhile Char.isDigit with
  | [] => false
  | c :: rest1 => (c == 'd' || c == 'D') && !(rest1.takeWhile Char.isDigit).isEmpty

/-- Follows the words of the spec: the optional multiply-or-divide group of
the grammar, which must consume sign and magnitude together or not be
present at all when the whole text has to match. -/
def specTailAfterMult : List Char → Option (List Char)
  | '*' :: r =>
    if (r.takeWhile Char.isDigit).isEmpty then none else some (r.dropWhile Char.isDigit)
  | '/' :: r =>
    if (r.takeWhile Char.isDigit).isEmpty then none else some (r.dropWhile Char.isDigit)
  | r => some r

/-- Follows the words of the spec: the optional plus-or-minus group of the
grammar under whole-text matching. -/
def specTailAfterAdd : List Char → Option (List Char)
  | '+' :: r =>
    if (r.takeWhile Char.isDigit).isEmpty then none else some (r.dropWhile Char.isDigit)
  | '-' :: r =>
    if (r.takeWhile Char.isDigit).isEmpty then none else some (r.dropWhile Char.isDigit)
  | r => some r

/-- Follows the words of the spec, for comparison with the implementation:
whether the whole (stripped) text matches the grammar
count? d sides (star-or-slash magnitude)? (plus-or-minus amount)?, with
nothing left over. -/
def specDiceGrammarFullMatch (s : String) : Bool :=
  match (pyStrip s).dropWhile Char.isDigit with
  | [] => false
  | c :: rest1 =>
    if c = 'd' ∨ c = 'D' then
      if (rest1.takeWhile Char.isDigit).isEmpty then false
      else
        match specTailAfterMult (rest1.dropWhile Char.isDigit) with
        | none => false
        | some r3 =>
          match specTailAfterAdd r3 with
          | none => false
          | some r4 => r4.isEmpty
    else false

/-- Alignment enumeration (enums.py). -/
inductive ArenaAlignment
  | lawful
  | neutral
  | chaotic
deriving DecidableEq

/-- Armor type enumeration (enums.py). -/
inductive ArmorType
  | plate
  | chain
  | leather
  | shield
deriving DecidableEq

/-- Ability score enumeration (enums.py), in the iteration order of the
Python Enum. -/
inductive Ability
  | strength
  | intelligence
  | wisdom
  | dexterity
  | constitution
  | charisma
deriving DecidableEq

/-- Character class enumeration (enums.py). -/
inductive ClassType
  | fighter
  | wizard
  | thief
  | elf
  | dwarf
  | halfling
deriving DecidableEq

/-- Alignment.random_normal (enums.py): one randint(1, 6) draw; 2 to 5 is
Neutral, 1 is Lawful, 6 is Chaotic. -/
def alignmentRandomNormal (next : Nat → Nat × Nat) (g : Nat) : ArenaAlignment × Nat :=
  ((if 2 ≤ (randint next 1 6 g).1 ∧ (randint next 1 6 g).1 ≤ 5 then ArenaAlignment.neutral
    else if (randint next 1 6 g).1 = 1 then ArenaAlignment.lawful
    else ArenaAlignment.chaotic),
   (randint next 1 6 g).2)

/-- Monster state (monster.py, class Monster): the fields the verified claims
depend on.  Bookkeeping-only fields of the source (source book, environment,
treasure type, counters, special-ability sets) are omitted because no claim
touches them. -/
structure Monster where
  race : String
  armor_class : Int
  hit_dice : Dice
  hit_points : Int
  max_hit_points : Int
  alignment : ArenaAlignment
deriving DecidableEq

/-- Monster.take_damage (monster.py lines 115-126): subtract the amount from
current hit points unconditionally, with no lower floor and no check of the
sign of the amount, and return whether hit points remain above zero. -/
def takeDamage (m : Monster) (damage : Int) : Monster × Bool :=
  ({m with hit_points := m.hit_points - damage},
   decide (0 < m.hit_points - damage))

/-- Monster.is_alive: hit points above zero. -/
def isAlive (m : Monster) : Bool :=
  0 < m.hit_points

/-- Monster.is_dead: hit points at or below zero. -/
def isDead (m : Monster) : Bool :=
  m.hit_points ≤ 0

/-- Monster.heal_fully: restore current hit points to the maximum. -/
def healFully (m : Monster) : Monster :=
  {m with hit_points := m.max_hit_points}

/-- Monster.get_level, which for a plain Monster is the number of its hit
dice (monster.py get_hit_dice_num). -/
def monsterGetLevel (m : Monster) : Nat :=
  m.hit_dice.number

/-- Equipment item with the magic bonus capped at 5 on construction
(equipment.py, Equipment.MAX_MAGIC_BONUS); armor additionally carries its
base armor class reduction (class Armor). -/
structure ArmorItem where
  armor_type : ArmorType
  base_armor : Int
  weight : Int
  magic_bonus : Int
deriving DecidableEq

/-- Armor.__init__ through Equipment.__init__: the magic bonus is capped at
MAX_MAGIC_BONUS = 5. -/
def mkArmorItem (t : ArmorType) (base w bonus : Int) : ArmorItem :=
  { armor_type := t, base_armor := base, weight := w, magic_bonus := min bonus 5 }

/-- Armor.get_armor_class: base armor plus magic bonus. -/
def armorItemAC (a : ArmorItem) : Int :=
  a.base_armor + a.magic_bonus

/-- Armor.make_type (equipment.py): standard armor values per type.  The
Python else-branch that raises is unreachable because the enum is closed. -/
def armorMakeType (t : ArmorType) (bonus : Int) : ArmorItem :=
  match t with
  | ArmorType.plate => mkArmorItem ArmorType.plate 6 4 bonus
  | ArmorType.chain => mkArmorItem ArmorType.chain 4 2 bonus
  | ArmorType.leather => mkArmorItem ArmorType.leather 2 1 bonus
  | ArmorType.shield => mkArmorItem ArmorType.shield 1 1 bonus

/-- Weapon item (equipment.py, class Weapon). -/
structure WeaponItem where
  name : String
  damage_dice : String
  weight : Int
  magic_bonus : Int
deriving DecidableEq

/-- Weapon.create_sword: a standard one-handed sword doing 1d8. -/
def weaponCreateSword : WeaponItem :=
  { name := "Sword", damage_dice := "1d8", weight := 1, magic_bonus := min 0 5 }

/-- Character state (character.py, class Character), extending the Monster
base with ability scores and damage (dictionaries become total functions),
equipment slots and level.  Fields no claim touches (age, personality,
rings and wands) are omitted. -/
structure Character extends Monster where
  name : String
  level : Nat
  class_type : ClassType
  abilityScores : Ability → Int
  abilityDamage : Ability → Int
  armor_worn : Option ArmorItem
  shield_held : Option ArmorItem
  weapon_in_hand : Option WeaponItem
  experience_points : Int

/-- Character.get_ability_score: base score minus accumulated ability
damage, floored at zero. -/
def getAbilityScore (c : Character) (ab : Ability) : Int :=
  max 0 (c.abilityScores ab - c.abilityDamage ab)

/-- Character.get_ability_modifier: three-band table, at most 8 gives -1,
9 to 12 gives 0, 13 and above gives +1. -/
def getAbilityModifier (c : Character) (ab : Ability) : Int :=
  if getAbilityScore c ab ≤ 8 then -1
  else if getAbilityScore c ab ≤ 12 then 0
  else 1

/-- Character.take_ability_damage: add to the stored damage for the given
ability; no armor class recomputation happens here in the source. -/
def takeAbilityDamage (c : Character) (ab : Ability) (damage : Int) : Character :=
  {c with abilityDamage := fun x => if x = ab then c.abilityDamage x + damage else c.abilityDamage x}

/-- Character.update_armor_class (character.py lines 163-182): start from
the base of 9, subtract the armor total armor class if armor is worn,
subtract the shield total armor class if a shield is held, and subtract the
dexterity ability modifier. -/
def updateArmorClass (c : Character) : Character :=
  {c with armor_class :=
    (match c.shield_held with
     | some sh =>
       (match c.armor_worn with
        | some a => (9 : Int) - armorItemAC a
        | none => 9) - armorItemAC sh
     | none =>
       match c.armor_worn with
       | some a => (9 : Int) - armorItemAC a
       | none => 9) - getAbilityModifier c Ability.dexterity}

/-- Character.set_armor: install the armor and recompute armor class. -/
def setArmor (c : Character) (a : Option ArmorItem) : Character :=
  updateArmorClass {c with armor_worn := a}

/-- Character.set_shield: install the shield and recompute armor class. -/
def setShield (c : Character) (sh : Option ArmorItem) : Character :=
  updateArmorClass {c with shield_held := sh}

/-- Character.set_weapon: install the weapon; no armor class update. -/
def setWeapon (c : Character) (w : Option WeaponItem) : Character :=
  {c with weapon_in_hand := w}

/-- The armor class contribution of an optional piece of armor: its total
armor class when present, zero when the slot is empty. -/
def optionArmorAC : Option ArmorItem → Int
  | some a => armorItemAC a
  | none => 0

/-- Character.__init__ (character.py lines 35-84) as a function of the
threaded generator state.  The Monster constructor rolls hit points once
from Dice(level, 6); roll_ability_scores then draws 3d6 for each of the six
abilities in enum order; the Character constructor rolls hit points a second
time, which is the value kept.  The stored armor class is the plain base of
9: the constructor never calls update_armor_class, and all equipment slots
start empty. -/
def mkCharacter (next : Nat → Nat × Nat) (name : String) (level : Nat) (g : Nat) :
    Character × Nat :=
  let hd : Dice := ⟨level, 6, 1, 0⟩
  let r0 := diceRoll next hd g
  let rStr := diceRoll next ⟨3, 6, 1, 0⟩ r0.2
  let rInt := diceRoll next ⟨3, 6, 1, 0⟩ rStr.2
  let rWis := diceRoll next ⟨3, 6, 1, 0⟩ rInt.2
  let rDex := diceRoll next ⟨3, 6, 1, 0⟩ rWis.2
  let rCon := diceRoll next ⟨3, 6, 1, 0⟩ rDex.2
  let rCha := diceRoll next ⟨3, 6, 1, 0⟩ rCon.2
  let rHp := diceRoll next hd rCha.2
  ({ race := "Fighter " ++ toString level,
     armor_class := 9,
     hit_dice := hd,
     hit_points := rHp.1,
     max_hit_points := rHp.1,
     alignment := ArenaAlignment.neutral,
     name := name,
     level := level,
     class_type := ClassType.fighter,
     abilityScores := fun ab =>
       match ab with
       | Ability.strength => rStr.1
       | Ability.intelligence => rInt.1
       | Ability.wisdom => rWis.1
       | Ability.dexterity => rDex.1
       | Ability.constitution => rCon.1
       | Ability.charisma => rCha.1,
     abilityDamage := fun _ => 0,
     armor_worn := none,
     shield_held := none,
     weapon_in_hand := none,
     experience_points := 0 }, rHp.2)

/-- Character.heal_fully, inherited from Monster: current hit points are
reset to the maximum. -/
def charHealFully (c : Character) : Character :=
  {c with hit_points := c.max_hit_points}

/-- Party.get_living_members (party.py): the members whose is_alive holds,
in membership order; a pure query.  Party holds Monster-typed members but is
used with Characters too (duck typing), so the member type is a parameter
together with the projection to the Monster base state. -/
def getLivingMembers {α : Type} (mon : α → Monster) (l : List α) : List α :=
  l.filter (fun x => isAlive (mon x))

/-- Party.get_dead_members: the members whose is_dead holds, in membership
order; a pure query. -/
def getDeadMembers {α : Type} (mon : α → Monster) (l : List α) : List α :=
  l.filter (fun x => isDead (mon x))

/-- Party.num_living. -/
def numLiving {α : Type} (mon : α → Monster) (l : List α) : Nat :=
  (getLivingMembers mon l).length

/-- Party.num_dead. -/
def numDead {α : Type} (mon : α → Monster) (l : List α) : Nat :=
  (getDeadMembers mon l).length

/-- Party.bring_out_your_dead (party.py lines 81-90): the members list
becomes the living members and the dead members are returned, both in their
pre-removal relative order.  The pair is (new members, removed dead). -/
def bringOutYourDead {α : Type} (mon : α → Monster) (l : List α) : List α × List α :=
  (getLivingMembers mon l, getDeadMembers mon l)

/-- Party.heal_all: heal every member fully, in place. -/
def healAll {α : Type} (healMember : α → α) (l : List α) : List α :=
  l.map healMember

/-- Party.get_average_level (party.py): 0 on an empty party, otherwise the
arithmetic mean of the member levels (a Python float, modelled as a
rational). -/
def getAverageLevel {α : Type} (levelOf : α → Nat) (l : List α) : ℚ :=
  if l.isEmpty then 0
  else ((l.map levelOf).sum : ℚ) / (l.length : ℚ)

/-- The fold performed by the Python builtin max with a key function: walk
the list keeping the current best, replacing it only when a strictly larger
key appears, so the first of several maximal members wins. -/
def pickMax {α : Type} (levelOf : α → Nat) : α → List α → α
  | b, [] => b
  | b, m :: rest => pickMax levelOf (if levelOf b < levelOf m then m else b) rest

/-- Party.get_highest_level_member (party.py lines 137-146): None on an
empty party, otherwise max of the members keyed by get_level. -/
def getHighestLevelMember {α : Type} (levelOf : α → Nat) : List α → Option α
  | [] => none
  | m :: rest => some (pickMax levelOf m rest)

/-- Arena configuration surface (the Arena fields that the simulation loop
reads; arena.py __init__). -/
structure ArenaCfg where
  num_years : Nat
  fights_per_year : Nat
  num_fighters : Nat
  start_level : Nat
  base_armor_type : Option ArmorType
  fight_man_vs_monster : Bool
deriving DecidableEq

/-- The damage source of Arena._simple_combat: each blow rolls Dice(1, 8)
on the shared generator. -/
def damageDraw (next : Nat → Nat × Nat) (g : Nat) : Int × Nat :=
  diceRoll next ⟨1, 8, 1, 0⟩ g

/-- Arena._simple_combat (arena.py lines 261-284) over an abstract damage
source: while both fighters are alive, fighter 1 strikes first, the loop
breaks immediately if fighter 2 dies, otherwise fighter 2 retaliates and the
loop condition is re-checked, so the blows strictly alternate.  The source
relies on every damage roll being at least 1 for termination; the model makes
that explicit with fuel, returning none only if fuel runs out. -/
def simpleCombat {σ : Type} (draw : σ → Int × σ) :
    Nat → Monster → Monster → σ → Option (Monster × Monster × σ)
  | 0, _, _, _ => none
  | fuel + 1, f1, f2, s =>
    if isAlive f1 && isAlive f2 then
      if isAlive (takeDamage f2 (draw s).1).1 = false then
        some (f1, (takeDamage f2 (draw s).1).1, (draw s).2)
      else
        simpleCombat draw fuel
          (takeDamage f1 (draw (draw s).2).1).1
          (takeDamage f2 (draw s).1).1
          ((draw (draw s).2).2)
    else some (f1, f2, s)

/-- One duel of fight_duels_man_vs_man: run _simple_combat on the pair,
mutating only the Monster base state of each fighter.  The fuel equal to the
hit points of the second fighter always suffices because every blow removes
at least one hit point; if it did not, the fighters are left untouched. -/
def fightPair (next : Nat → Nat × Nat) (a b : Character) (g : Nat) :
    Character × Character × Nat :=
  match simpleCombat (damageDraw next) b.hit_points.toNat a.toMonster b.toMonster g with
  | some r => ({a with toMonster := r.1}, {b with toMonster := r.2.1}, r.2.2)
  | none => (a, b, g)

/-- Arena.fight_duels_man_vs_man (arena.py lines 243-254): the loop
for i in range(0, len(members) - 1, 2) duels members[i] against
members[i + 1], so consecutive members pair up at indices (0,1), (2,3) and
so on, and an odd trailing member is never engaged. -/
def fightDuelsManVsMan (next : Nat → Nat × Nat) : List Character → Nat → List Character × Nat
  | [], g => ([], g)
  | [x], g => ([x], g)
  | a :: b :: rest, g =>
    ((fightPair next a b g).1 ::
     (fightPair next a b g).2.1 ::
     (fightDuelsManVsMan next rest (fightPair next a b g).2.2).1,
     (fightDuelsManVsMan next rest (fightPair next a b g).2.2).2)

/-- Arena.fight_duels: dispatch on the mode flag; the man-vs-monster branch
of the source only prints a placeholder message and touches no fighter. -/
def fightDuels (next : Nat → Nat × Nat) (cfg : ArenaCfg) (l : List Character) (g : Nat) :
    List Character × Nat :=
  if cfg.fight_man_vs_monster then (l, g)
  else fightDuelsManVsMan next l g

/-- Arena.new_fighter (arena.py lines 203-230): construct a Character at the
starting level, draw a normally distributed alignment, equip base armor when
configured (set_armor recomputes armor class) and a sword. -/
def newFighter (next : Nat → Nat × Nat) (cfg : ArenaCfg) (g : Nat) : Character × Nat :=
  let r := mkCharacter next "Fighter" cfg.start_level g
  let ra := alignmentRandomNormal next r.2
  let c1 : Character := {r.1 with alignment := ra.1}
  let c2 : Character :=
    match cfg.base_armor_type with
    | some t => setArmor c1 (some (armorMakeType t 0))
    | none => c1
  (setWeapon c2 (some weaponCreateSword), ra.2)

/-- The while loop of Arena.recruit_new_fighters, with fuel: while the list
is smaller than the configured size, append a new fighter. -/
def recruitGo (next : Nat → Nat × Nat) (cfg : ArenaCfg) :
    Nat → List Character → Nat → List Character × Nat
  | 0, l, g => (l, g)
  | n + 1, l, g =>
    if l.length < cfg.num_fighters then
      recruitGo next cfg n (l ++ [(newFighter next cfg g).1]) (newFighter next cfg g).2
    else (l, g)

/-- Arena.recruit_new_fighters: fill the fighter list up to num_fighters.
The deficit bounds the number of iterations, so it serves as fuel. -/
def recruitNewFighters (next : Nat → Nat × Nat) (cfg : ArenaCfg) (l : List Character) (g : Nat) :
    List Character × Nat :=
  recruitGo next cfg (cfg.num_fighters - l.length) l g

/-- The random-extraction pass modelling Party.shuffle_members.  Modelled
from the spec: random.shuffle is a uniform random permutation driven by the
shared seeded generator; here each step extracts the member at a randint
position and the list length bounds the recursion. -/
def shuffleGo (next : Nat → Nat × Nat) {α : Type} : Nat → List α → Nat → List α × Nat
  | 0, l, g => (l, g)
  | n + 1, l, g =>
    if l.isEmpty then (l, g)
    else
      match l.get? (randint next 0 (l.length - 1) g).1 with
      | some x =>
        (x :: (shuffleGo next n
                (l.take (randint next 0 (l.length - 1) g).1 ++
                 l.drop ((randint next 0 (l.length - 1) g).1 + 1))
                (randint next 0 (l.length - 1) g).2).1,
         (shuffleGo next n
           (l.take (randint next 0 (l.length - 1) g).1 ++
            l.drop ((randint next 0 (l.length - 1) g).1 + 1))
           (randint next 0 (l.length - 1) g).2).2)
      | none => (l, (randint next 0 (l.length - 1) g).2)

/-- Party.shuffle_members on the shared generator. -/
def shuffleMembers (next : Nat → Nat × Nat) {α : Type} (l : List α) (g : Nat) : List α × Nat :=
  shuffleGo next l.length l g

/-- Arena.run_one_cycle (arena.py lines 194-201): recruit to size, shuffle,
fight duels, bring out the dead (clear_fallen repeats the removal), then
heal every survivor. -/
def runOneCycle (next : Nat → Nat × Nat) (cfg : ArenaCfg) (st : List Character × Nat) :
    List Character × Nat :=
  let r1 := recruitNewFighters next cfg st.1 st.2
  let r2 := shuffleMembers next r1.1 r1.2
  let r3 := fightDuels next cfg r2.1 r2.2
  let l4 := (bringOutYourDead Character.toMonster r3.1).1
  let l5 := (bringOutYourDead Character.toMonster l4).1
  (healAll charHealFully l5, r3.2)

/-- The per-year report of Arena.year_end: the living count and the average
level of the fighter list. -/
def yearEndSnapshot (l : List Character) : Nat × ℚ :=
  (numLiving Character.toMonster l, getAverageLevel (fun c => c.level) l)

/-- The inner fights_per_year loop of Arena.run_sim. -/
def runCycles (next : Nat → Nat × Nat) (cfg : ArenaCfg) :
    Nat → List Character × Nat → List Character × Nat
  | 0, st => st
  | n + 1, st => runCycles next cfg n (runOneCycle next cfg st)

/-- The year loop of Arena.run_sim: run the fight cycles of the year, then
record the year-end snapshot. -/
def runYears (next : Nat → Nat × Nat) (cfg : ArenaCfg) :
    Nat → List Character × Nat → List (Nat × ℚ) × (List Character × Nat)
  | 0, st => ([], st)
  | y + 1, st =>
    ((yearEndSnapshot (runCycles next cfg cfg.fights_per_year st).1 ::
      (runYears next cfg y (runCycles next cfg cfg.fights_per_year st)).1),
     (runYears next cfg y (runCycles next cfg cfg.fights_per_year st)).2)

/-- Arena.run_sim (arena.py lines 187-192): num_years years of
fights_per_year cycles each, with a year-end report after each year. -/
def runSim (next : Nat → Nat × Nat) (cfg : ArenaCfg) (st : List Character × Nat) :
    List (Nat × ℚ) × (List Character × Nat) :=
  runYears next cfg cfg.num_years st

/-- set_random_seed (dice.py lines 183-185).  Modelled from the spec:
random.seed initialises the generator state deterministically from the seed. -/
def setRandomSeed (seed : Nat) : Nat :=
  seed

/-- Decidable equality for parse results, so that concrete parses can be
checked by evaluation. -/
instance : DecidableEq (Except String Dice) := fun a b =>
  match a, b with
  | Except.ok x, Except.ok y =>
    if h : x = y then Decidable.isTrue (by rw [h]) else Decidable.isFalse (by simp [h])
  | Except.ok _, Except.error _ => Decidable.isFalse (by simp)
  | Except.error _, Except.ok _ => Decidable.isFalse (by simp)
  | Except.error x, Except.error y =>
    if h : x = y then Decidable.isTrue (by rw [h]) else Decidable.isFalse (by simp [h])

/-- A concrete generator step function used to instantiate theorems at
checkable inputs. -/
def nextW : Nat → Nat × Nat := fun g => (g * 37 + 11, g + 1)

/-- A degenerate generator that always yields zero, making every 3d6
ability roll come out 3. -/
def next0 : Nat → Nat × Nat := fun _ => (0, 0)

/-- A concrete monster with 5 of 5 hit points. -/
def orcMonster : Monster :=
  { race := "Orc", armor_class := 6, hit_dice := ⟨1, 6, 1, 0⟩,
    hit_points := 5, max_hit_points := 5, alignment := ArenaAlignment.neutral }

/-- A concrete monster with 4 of 4 hit points. -/
def goblinMonster : Monster :=
  { race := "Goblin", armor_class := 7, hit_dice := ⟨1, 6, 1, 0⟩,
    hit_points := 4, max_hit_points := 4, alignment := ArenaAlignment.neutral }

/-- A small concrete arena configuration. -/
def cfgW : ArenaCfg :=
  { num_years := 1, fights_per_year := 1, num_fighters := 2, start_level := 1,
    base_armor_type := some ArmorType.plate, fight_man_vs_monster := false }

/-- Concrete fighters for instantiating the duel-pairing theorems. -/
def charA : Character := (mkCharacter nextW "A" 1 0).1

/-- Second concrete fighter. -/
def charB : Character := (mkCharacter nextW "B" 1 50).1

/-- Third concrete fighter, the odd one out. -/
def charC : Character := (mkCharacter nextW "C" 1 99).1

theorem randint_lower (next : Nat → Nat × Nat) (lo hi g : Nat) :
    lo ≤ (randint next lo hi g).1 :=
  Nat.le_add_right lo _

theorem randint_upper (next : Nat → Nat × Nat) (lo hi g : Nat) (h : lo ≤ hi) :
    (randint next lo hi g).1 ≤ hi := by
  have hp : 0 < hi + 1 - lo := by omega
  have := Nat.mod_lt (next g).1 hp
  simp only [randint]
  omega

theorem rollSumDice_bounds (next : Nat → Nat × Nat) (sides : Nat) (hs : 1 ≤ sides) :
    ∀ n g, n ≤ (rollSumDice next sides n g).1 ∧ (rollSumDice next sides n g).1 ≤ n * sides
  | 0, g => by simp [rollSumDice]
  | n + 1, g => by
    have h1 := randint_lower next 1 sides g
    have h2 := randint_upper next 1 sides g hs
    have ih := rollSumDice_bounds next sides hs n (randint next 1 sides g).2
    simp only [rollSumDice]
    constructor
    · omega
    · rw [show (n + 1) * sides = sides + n * sides by ring]
      exact Nat.add_le_add h2 ih.2

theorem dicePipeline_mono (m a : Int) {s t : Nat} (h : s ≤ t) :
    dicePipeline m a s ≤ dicePipeline m a t := by
  unfold dicePipeline
  apply max_le_max _ le_rfl
  apply add_le_add_right
  have hnat : (if 0 < m then s * m.toNat else if m < 0 then s / m.natAbs else s) ≤
      (if 0 < m then t * m.toNat else if m < 0 then t / m.natAbs else t) := by
    split
    · exact Nat.mul_le_mul_right _ h
    · split
      · exact Nat.div_le_div_right h
      · exact h
  exact_mod_cast hnat

/-- C5: for every dice expression with any count and at least one side, and
for every state of the shared generator (hence for every possible random
draw), the rolled value sits between min_roll and max_roll; all three apply
the identical multiply or floor-divide, addition, and clamp-at-zero pipeline,
with 1 or sides as the per-die value for the bounds. -/
theorem dice_roll_within_bounds (next : Nat → Nat × Nat) (d : Dice) (g : Nat)
    (hs : 1 ≤ d.sides) :
    minRoll d ≤ (diceRoll next d g).1 ∧ (diceRoll next d g).1 ≤ maxRoll d := by
  have hb := rollSumDice_bounds next d.sides hs d.number g
  exact ⟨dicePipeline_mono _ _ hb.1, dicePipeline_mono _ _ hb.2⟩

/-- Witness for C5 at the dice expression 2d8+3 and a concrete generator. -/
theorem dice_roll_within_bounds_witness :
    minRoll ⟨2, 8, 1, 3⟩ ≤ (diceRoll nextW ⟨2, 8, 1, 3⟩ 0).1 ∧
    (diceRoll nextW ⟨2, 8, 1, 3⟩ 0).1 ≤ maxRoll ⟨2, 8, 1, 3⟩ :=
  dice_roll_within_bounds nextW ⟨2, 8, 1, 3⟩ 0 (by decide)

/-- C3 (amended): parsing succeeds exactly when the stripped text has a
PREFIX of the form digits* d digits+ (either case of d); the optional
multiplier and addition groups and any trailing characters beyond the
matched prefix are ignored rather than rejected, because re.match anchors
only the start of the string.  On success the parsed fields come out as the
grammar reads them, with the count defaulting to 1 when omitted. -/
theorem dice_from_string_accepts :
    (∀ s : String, parseSucceeds s = diceHeadMatches s) ∧
    diceFromString "2d8+3" = Except.ok ⟨2, 8, 1, 3⟩ ∧
    diceFromString "d6" = Except.ok ⟨1, 6, 1, 0⟩ := by
  refine ⟨?_, by decide, by decide⟩
  intro s
  simp only [parseSucceeds, diceFromString, diceHeadMatches]
  cases h : (pyStrip s).dropWhile Char.isDigit with
  | nil => simp
  | cons c rest1 =>
    by_cases hc : c = 'd' ∨ c = 'D'
    · have hcb : (c == 'd' || c == 'D') = true := by
        rcases hc with rfl | rfl <;> rfl
      by_cases he : (rest1.takeWhile Char.isDigit).isEmpty
      · simp [hc, hcb, he]
      · simp [hc, hcb, he]
    · have hcb : (c == 'd' || c == 'D') = false := by
        simp only [Bool.or_eq_false_iff, beq_eq_false_iff_ne]
        exact not_or.mp hc
      simp [hc, hcb]

/-- Counterexample to C3 as stated: the text 2d8+3x does not match the
grammar as a whole, yet from_string succeeds on it, parsing the valid
prefix 2d8+3 and silently ignoring the trailing x. -/
theorem dice_from_string_trailing_accepted :
    specDiceGrammarFullMatch "2d8+3x" = false ∧
    diceFromString "2d8+3x" = Except.ok ⟨2, 8, 1, 3⟩ := by
  decide

/-- C1 (amended): take_damage subtracts the amount from current hit points
unconditionally and without a floor — so zero is a no-op but a negative
amount INCREASES hit points rather than leaving them unchanged — never
fails, leaves the maximum untouched, and returns whether hit points remain
above zero after the subtraction. -/
theorem take_damage_subtracts (m : Monster) (damage : Int) :
    (takeDamage m damage).1.hit_points = m.hit_points - damage ∧
    (takeDamage m damage).1.max_hit_points = m.max_hit_points ∧
    ((takeDamage m damage).2 = true ↔ 0 < m.hit_points - damage) := by
  refine ⟨rfl, rfl, ?_⟩
  simp [takeDamage]

/-- Counterexample to C1 as stated: a damage amount of -3 is at most 0, yet
it changes the hit points of a 5-hit-point monster (to 8), so non-positive
amounts are not no-ops. -/
theorem take_damage_negative_not_noop :
    (-3 : Int) ≤ 0 ∧ (takeDamage orcMonster (-3)).1.hit_points ≠ orcMonster.hit_points := by
  decide

/-- C2 (amended): the stored armor class equals 9 minus the armor total
(base reduction plus magic bonus) minus the shield total minus the dexterity
modifier exactly at the recomputation points — set_armor and set_shield call
update_armor_class — but construction stores the plain base of 9 without
consulting dexterity, and dexterity changes through ability damage do not
trigger a recomputation. -/
theorem armor_class_recompute_points :
    (∀ (c : Character) (a : Option ArmorItem),
      (setArmor c a).armor_class =
        9 - optionArmorAC a - optionArmorAC c.shield_held -
          getAbilityModifier c Ability.dexterity) ∧
    (∀ (c : Character) (sh : Option ArmorItem),
      (setShield c sh).armor_class =
        9 - optionArmorAC c.armor_worn - optionArmorAC sh -
          getAbilityModifier c Ability.dexterity) ∧
    (∀ (next : Nat → Nat × Nat) (nm : String) (lvl g : Nat),
      (mkCharacter next nm lvl g).1.armor_class = 9) ∧
    (∀ (c : Character) (ab : Ability) (d : Int),
      (takeAbilityDamage c ab d).armor_class = c.armor_class) := by
  refine ⟨?_, ?_, fun _ _ _ _ => rfl, fun _ _ _ => rfl⟩
  · intro c a
    cases a <;> cases hsh : c.shield_held <;>
      simp [setArmor, updateArmorClass, optionArmorAC, hsh, getAbilityModifier,
        getAbilityScore]
  · intro c sh
    cases sh <;> cases ha : c.armor_worn <;>
      simp [setShield, updateArmorClass, optionArmorAC, ha, getAbilityModifier,
        getAbilityScore]

/-- Counterexample to C2 as stated: a freshly constructed Character whose
rolled dexterity is 3 (modifier -1) still has armor class 9, not
9 minus the dexterity modifier (which would be 10), because __init__ never
calls update_armor_class. -/
theorem fresh_character_armor_class_ignores_dexterity :
    (mkCharacter next0 "Bob" 1 0).1.armor_class ≠
      9 - getAbilityModifier (mkCharacter next0 "Bob" 1 0).1 Ability.dexterity := by
  decide

theorem pickMax_spec {α : Type} (levelOf : α → Nat) :
    ∀ (l : List α) (b : α),
      (pickMax levelOf b l = b ∧ ∀ x ∈ l, levelOf x ≤ levelOf b) ∨
      (∃ i, ∃ h : i < l.length, l.get ⟨i, h⟩ = pickMax levelOf b l ∧
        levelOf b < levelOf (pickMax levelOf b l) ∧
        (∀ j (hj : j < l.length), j < i →
          levelOf (l.get ⟨j, hj⟩) < levelOf (pickMax levelOf b l)) ∧
        ∀ x ∈ l, levelOf x ≤ levelOf (pickMax levelOf b l))
  | [], b => Or.inl ⟨rfl, by simp⟩
  | m :: rest, b => by
    simp only [pickMax]
    by_cases hm : levelOf b < levelOf m
    · rw [if_pos hm]
      rcases pickMax_spec levelOf rest m with ⟨heq, hbound⟩ | ⟨i, hi, hget, hlt, hbefore, hbound⟩
      · right
        refine ⟨0, by simp, by simpa using heq.symm, by rw [heq]; exact hm, ?_, ?_⟩
        · intro j hj hj0
          omega
        · intro x hx
          rw [heq]
          rcases List.mem_cons.mp hx with rfl | hx'
          · exact le_rfl
          · exact hbound x hx'
      · right
        refine ⟨i + 1, by simpa using Nat.succ_lt_succ hi, ?_, lt_trans hm hlt, ?_, ?_⟩
        · simpa using hget
        · intro j hj hji
          cases j with
          | zero => exact hlt
          | succ j' => exact hbefore j' (by simpa using Nat.lt_of_succ_lt_succ hj) (by omega)
        · intro x hx
          rcases List.mem_cons.mp hx with rfl | hx'
          · exact le_of_lt hlt
          · exact hbound x hx'
    · rw [if_neg hm]
      rcases pickMax_spec levelOf rest b with ⟨heq, hbound⟩ | ⟨i, hi, hget, hlt, hbefore, hbound⟩
      · left
        refine ⟨heq, ?_⟩
        intro x hx
        rcases List.mem_cons.mp hx with rfl | hx'
        · omega
        · exact hbound x hx'
      · right
        refine ⟨i + 1, by simpa using Nat.succ_lt_succ hi, ?_, hlt, ?_, ?_⟩
        · simpa using hget
        · intro j hj hji
          cases j with
          | zero =>
            have hm0 : (m :: rest).get ⟨0, hj⟩ = m := rfl
            rw [hm0]
            omega
          | succ j' => exact hbefore j' (by simpa using Nat.lt_of_succ_lt_succ hj) (by omega)
        · intro x hx
          rcases List.mem_cons.mp hx with rfl | hx'
          · omega
          · exact hbound x hx'

/-- C4 (amended): on a non-empty party, get_highest_level_member returns the
first member in iteration order among those of maximal level: every earlier
member has a strictly smaller level and no member anywhere has a larger one.
(On an empty party it returns the sentinel None instead of failing; see the
counterexample.) -/
theorem highest_level_first_of_max {α : Type} (levelOf : α → Nat) (l : List α)
    (hne : l ≠ []) :
    ∃ m, getHighestLevelMember levelOf l = some m ∧
      ∃ i, ∃ h : i < l.length, l.get ⟨i, h⟩ = m ∧
        (∀ j (hj : j < l.length), j < i → levelOf (l.get ⟨j, hj⟩) < levelOf m) ∧
        ∀ x ∈ l, levelOf x ≤ levelOf m := by
  cases l with
  | nil => exact absurd rfl hne
  | cons a rest =>
    refine ⟨pickMax levelOf a rest, rfl, ?_⟩
    rcases pickMax_spec levelOf rest a with ⟨heq, hbound⟩ | ⟨i, hi, hget, hlt, hbefore, hbound⟩
    · refine ⟨0, by simp, by simpa using heq.symm, ?_, ?_⟩
      · intro j hj hj0
        omega
      · intro x hx
        rw [heq]
        rcases List.mem_cons.mp hx with rfl | hx'
        · exact le_rfl
        · exact hbound x hx'
    · refine ⟨i + 1, by simpa using Nat.succ_lt_succ hi, ?_, ?_, ?_⟩
      · simpa using hget
      · intro j hj hji
        cases j with
        | zero => exact hlt
        | succ j' => exact hbefore j' (by simpa using Nat.lt_of_succ_lt_succ hj) (by omega)
      · intro x hx
        rcases List.mem_cons.mp hx with rfl | hx'
        · exact le_of_lt hlt
        · exact hbound x hx'

/-- Witness for C4 at a concrete list with a tied maximum: the first of the
two fives must be selected. -/
theorem highest_level_first_of_max_witness :
    ∃ m, getHighestLevelMember (fun n : Nat => n) [2, 5, 5, 1] = some m ∧
      ∃ i, ∃ h : i < ([2, 5, 5, 1] : List Nat).length,
        ([2, 5, 5, 1] : List Nat).get ⟨i, h⟩ = m ∧
        (∀ j (hj : j < ([2, 5, 5, 1] : List Nat).length), j < i →
          (fun n : Nat => n) (([2, 5, 5, 1] : List Nat).get ⟨j, hj⟩) < (fun n : Nat => n) m) ∧
        ∀ x ∈ ([2, 5, 5, 1] : List Nat), (fun n : Nat => n) x ≤ (fun n : Nat => n) m :=
  highest_level_first_of_max (fun n : Nat => n) [2, 5, 5, 1] (by decide)

/-- Counterexample to C4 as stated: querying the highest-level member of an
empty population does not fail — get_highest_level_member returns the
sentinel None. -/
theorem highest_level_empty_returns_sentinel :
    getHighestLevelMember monsterGetLevel ([] : List Monster) = none := rfl

theorem living_dead_count {α : Type} (mon : α → Monster) :
    ∀ l : List α, numLiving mon l + numDead mon l = l.length := by
  intro l
  induction l with
  | nil => simp [numLiving, numDead, getLivingMembers, getDeadMembers]
  | cons a t ih =>
    simp only [numLiving, numDead, getLivingMembers, getDeadMembers, isAlive, isDead] at ih ⊢
    rw [List.filter_cons, List.filter_cons]
    by_cases h : 0 < (mon a).hit_points
    · rw [if_pos (by simpa using h),
        if_neg (by simpa using (by omega : ¬(mon a).hit_points ≤ 0))]
      simp only [List.length_cons]
      omega
    · rw [if_neg (by simpa using h),
        if_pos (by simpa using (by omega : (mon a).hit_points ≤ 0))]
      simp only [List.length_cons]
      omega

/-- C7: living and dead form an exact partition of the population by the
strict hit-point threshold — the two pure queries always count up to the
total size — and after bring_out_your_dead the remaining members contain no
dead, with the removed dead returned as the dead sublist of the original
membership order. -/
theorem party_living_dead_partition {α : Type} (mon : α → Monster) (l : List α) :
    numLiving mon l + numDead mon l = l.length ∧
    getDeadMembers mon (bringOutYourDead mon l).1 = [] ∧
    (bringOutYourDead mon l).2 = getDeadMembers mon l ∧
    List.Sublist (getDeadMembers mon l) l := by
  refine ⟨living_dead_count mon l, ?_, rfl, ?_⟩
  · simp only [bringOutYourDead, getDeadMembers, getLivingMembers, List.filter_filter]
    apply List.filter_eq_nil_iff.mpr
    intro x hx
    simp only [Bool.and_eq_true, decide_eq_true_eq, isAlive, isDead, not_and]
    omega
  · simp only [getDeadMembers]
    exact List.filter_sublist l

theorem damageDraw_ge_one (next : Nat → Nat × Nat) (g : Nat) :
    1 ≤ (damageDraw next g).1 := by
  have hb := (rollSumDice_bounds next 8 (by omega) 1 g).1
  have hcast : (1 : Int) ≤ ((rollSumDice next 8 1 g).1 : Int) := by exact_mod_cast hb
  simp only [damageDraw, diceRoll, dicePipeline]
  rw [if_pos (by norm_num)]
  refine le_trans ?_ (le_max_left _ _)
  simpa using hcast

theorem damageDraw_nonneg (next : Nat → Nat × Nat) (g : Nat) :
    0 ≤ (damageDraw next g).1 := by
  simp only [damageDraw, diceRoll, dicePipeline]
  exact le_max_right _ _

theorem simpleCombat_total {σ : Type} (draw : σ → Int × σ) (hd : ∀ t, 1 ≤ (draw t).1) :
    ∀ (fuel : Nat) (f1 f2 : Monster) (s : σ),
      0 < f2.hit_points → f2.hit_points.toNat ≤ fuel →
      ∃ g1 g2 s', simpleCombat draw fuel f1 f2 s = some (g1, g2, s') ∧
        ((0 < g1.hit_points ∧ g2.hit_points ≤ 0) ∨ (g1.hit_points ≤ 0 ∧ 0 < g2.hit_points))
  | 0, f1, f2, s => by
    intro h2 hf
    exfalso
    omega
  | fuel + 1, f1, f2, s => by
    intro h2 hf
    simp only [simpleCombat]
    by_cases h1 : 0 < f1.hit_points
    · rw [if_pos (by simp [isAlive, h1, h2])]
      by_cases hdead : 0 < f2.hit_points - (draw s).1
      · have hAlive : isAlive (takeDamage f2 (draw s).1).1 = true := by
          simp [isAlive, takeDamage, hdead]
        rw [if_neg (by simp [hAlive])]
        have h2' : 0 < (takeDamage f2 (draw s).1).1.hit_points := by
          simpa [takeDamage] using hdead
        have hf' : (takeDamage f2 (draw s).1).1.hit_points.toNat ≤ fuel := by
          have := hd s
          simp only [takeDamage]
          omega
        exact simpleCombat_total draw hd fuel _ _ _ h2' hf'
      · have hDead : isAlive (takeDamage f2 (draw s).1).1 = false := by
          simp only [isAlive, takeDamage]
          simpa using hdead
        rw [if_pos hDead]
        refine ⟨f1, (takeDamage f2 (draw s).1).1, (draw s).2, rfl, Or.inl ⟨h1, ?_⟩⟩
        simp only [takeDamage]
        omega
    · rw [if_neg (by simp [isAlive, h1])]
      exact ⟨f1, f2, s, rfl, Or.inr ⟨by omega, h2⟩⟩

theorem simpleCombat_bounds {σ : Type} (draw : σ → Int × σ) (hd : ∀ t, 0 ≤ (draw t).1) :
    ∀ (fuel : Nat) (f1 f2 : Monster) (s : σ) (r : Monster × Monster × σ),
      simpleCombat draw fuel f1 f2 s = some r →
      r.1.hit_points ≤ f1.hit_points ∧ r.1.max_hit_points = f1.max_hit_points ∧
        r.2.1.hit_points ≤ f2.hit_points ∧ r.2.1.max_hit_points = f2.max_hit_points
  | 0, f1, f2, s, r => by simp [simpleCombat]
  | fuel + 1, f1, f2, s, r => by
    simp only [simpleCombat]
    by_cases hc : (isAlive f1 && isAlive f2) = true
    · rw [if_pos hc]
      by_cases hdead : isAlive (takeDamage f2 (draw s).1).1 = false
      · rw [if_pos hdead]
        intro h
        have hr := Option.some.inj h
        subst hr
        have := hd s
        refine ⟨le_refl _, rfl, ?_, rfl⟩
        simp only [takeDamage]
        omega
      · rw [if_neg hdead]
        intro h
        have ih := simpleCombat_bounds draw hd fuel _ _ _ r h
        have hs0 := hd s
        have hs1 := hd (draw s).2
        simp only [takeDamage] at ih
        refine ⟨le_trans ih.1 (by omega), ih.2.1, le_trans ih.2.2.1 (by omega), ih.2.2.2⟩
    · rw [if_neg hc]
      intro h
      have hr := Option.some.inj h
      subst hr
      exact ⟨le_refl _, rfl, le_refl _, rfl⟩

/-- C6: for every pair of combatants that both start alive, the alternating
combat of _simple_combat terminates within hit-points-of-the-second-fighter
iterations (each blow removes at least one hit point) and ends with exactly
one of the two at or below zero hit points and the other still above zero:
the loop breaks right after the blow that kills the second fighter, before
any retaliation, and exits the loop condition right after a retaliatory blow
kills the first.  The first member of the pair strikes first and the blows
strictly alternate by construction of simpleCombat. -/
theorem simple_combat_terminates_one_dead (next : Nat → Nat × Nat) (f1 f2 : Monster)
    (g : Nat) (h1 : 0 < f1.hit_points) (h2 : 0 < f2.hit_points) :
    ∃ g1 g2 g', simpleCombat (damageDraw next) f2.hit_points.toNat f1 f2 g =
        some (g1, g2, g') ∧
      ((0 < g1.hit_points ∧ g2.hit_points ≤ 0) ∨ (g1.hit_points ≤ 0 ∧ 0 < g2.hit_points)) :=
  simpleCombat_total (damageDraw next) (damageDraw_ge_one next)
    f2.hit_points.toNat f1 f2 g h2 (le_refl _)

/-- Witness for C6 at two concrete live monsters and a concrete generator. -/
theorem simple_combat_terminates_one_dead_witness :
    ∃ g1 g2 g', simpleCombat (damageDraw nextW) goblinMonster.hit_points.toNat
        orcMonster goblinMonster 0 = some (g1, g2, g') ∧
      ((0 < g1.hit_points ∧ g2.hit_points ≤ 0) ∨ (g1.hit_points ≤ 0 ∧ 0 < g2.hit_points)) :=
  simple_combat_terminates_one_dead nextW orcMonster goblinMonster 0 (by decide) (by decide)

/-- C9: fight_duels_man_vs_man pairs consecutive members — indices (0,1),
(2,3) and so on — so on a population of odd size the single trailing member
is never engaged: duelling an even-length list with one extra member
appended produces exactly the duelled even-length list with that member
appended unchanged, and consumes exactly the same generator draws. -/
theorem fight_duels_odd_trailing (next : Nat → Nat × Nat) :
    ∀ (l : List Character), l.length % 2 = 0 → ∀ (x : Character) (g : Nat),
      fightDuelsManVsMan next (l ++ [x]) g =
        ((fightDuelsManVsMan next l g).1 ++ [x], (fightDuelsManVsMan next l g).2)
  | [], _, x, g => by simp [fightDuelsManVsMan]
  | [a], h, x, g => by simp at h
  | a :: b :: rest, h, x, g => by
    have h' : rest.length % 2 = 0 := by
      simp only [List.length_cons] at h
      omega
    simp only [List.cons_append, fightDuelsManVsMan, List.append_eq,
      fight_duels_odd_trailing next rest h' x ((fightPair next a b g).2.2)]

/-- Witness for C9 at a concrete population of three fighters: the third
sits out and is returned unchanged. -/
theorem fight_duels_odd_trailing_witness :
    fightDuelsManVsMan nextW ([charA, charB] ++ [charC]) 0 =
      ((fightDuelsManVsMan nextW [charA, charB] 0).1 ++ [charC],
       (fightDuelsManVsMan nextW [charA, charB] 0).2) :=
  fight_duels_odd_trailing nextW [charA, charB] (by decide) charC 0

/-- C8: the simulation is a deterministic function of the seed and the
configuration.  All randomness is drawn from the single generator state that
set_random_seed initialises, threaded through hit-point rolls, shuffles and
damage rolls, so two runs from equal starting populations and equal seeds
produce identical per-year living-count and average-level snapshots and
identical final states. -/
theorem run_sim_deterministic (next : Nat → Nat × Nat) (cfg : ArenaCfg)
    (p1 p2 : List Character) (s1 s2 : Nat) (hp : p1 = p2) (hs : s1 = s2) :
    runSim next cfg (p1, setRandomSeed s1) = runSim next cfg (p2, setRandomSeed s2) := by
  subst hp
  subst hs
  rfl

/-- Witness for C8: two concrete identically seeded runs coincide. -/
theorem run_sim_deterministic_witness :
    runSim nextW cfgW ([], setRandomSeed 7) = runSim nextW cfgW ([], setRandomSeed 7) :=
  run_sim_deterministic nextW cfgW [] [] 7 7 rfl rfl

theorem newFighter_hp_eq_max (next : Nat → Nat × Nat) (cfg : ArenaCfg) (g : Nat) :
    (newFighter next cfg g).1.hit_points = (newFighter next cfg g).1.max_hit_points := by
  simp only [newFighter]
  cases h : cfg.base_armor_type <;>
    simp [h, setArmor, setWeapon, updateArmorClass, mkCharacter]

theorem recruitGo_preserves (next : Nat → Nat × Nat) (cfg : ArenaCfg) :
    ∀ (fuel : Nat) (l : List Character) (g : Nat),
      (∀ c ∈ l, c.hit_points ≤ c.max_hit_points) →
      ∀ c ∈ (recruitGo next cfg fuel l g).1, c.hit_points ≤ c.max_hit_points
  | 0, l, g => by
    intro h
    simpa [recruitGo] using h
  | fuel + 1, l, g => by
    intro h
    simp only [recruitGo]
    split
    · apply recruitGo_preserves next cfg fuel _ _
      intro c' hc'
      rcases List.mem_append.mp hc' with h1 | h2
      · exact h c' h1
      · have : c' = (newFighter next cfg g).1 := by simpa using h2
        rw [this]
        exact le_of_eq (newFighter_hp_eq_max next cfg g)
    · exact h

theorem shuffleGo_subset (next : Nat → Nat × Nat) {α : Type} :
    ∀ (fuel : Nat) (l : List α) (g : Nat) (x : α),
      x ∈ (shuffleGo next fuel l g).1 → x ∈ l
  | 0, l, g, x => by simp [shuffleGo]
  | fuel + 1, l, g, x => by
    simp only [shuffleGo]
    by_cases he : l.isEmpty
    · simp [he]
    · rw [if_neg (by simpa using he)]
      cases hj : l.get? (randint next 0 (l.length - 1) g).1 with
      | some y =>
        simp only
        intro hx
        rcases List.mem_cons.mp hx with rfl | hx'
        · exact List.get?_mem hj
        · have hsub := shuffleGo_subset next fuel _ _ _ hx'
          rcases List.mem_append.mp hsub with h1 | h2
          · exact List.take_subset _ _ h1
          · exact List.drop_subset _ _ h2
      | none => simp only; exact fun hx => hx

theorem fightPair_preserves (next : Nat → Nat × Nat) (a b : Character) (g : Nat)
    (ha : a.hit_points ≤ a.max_hit_points) (hb : b.hit_points ≤ b.max_hit_points) :
    (fightPair next a b g).1.hit_points ≤ (fightPair next a b g).1.max_hit_points ∧
    (fightPair next a b g).2.1.hit_points ≤ (fightPair next a b g).2.1.max_hit_points := by
  simp only [fightPair]
  cases h : simpleCombat (damageDraw next) b.hit_points.toNat a.toMonster b.toMonster g with
  | some r =>
    have hbd := simpleCombat_bounds (damageDraw next) (damageDraw_nonneg next) _ _ _ _ r h
    constructor
    · exact le_trans hbd.1 (le_of_le_of_eq ha hbd.2.1.symm)
    · exact le_trans hbd.2.2.1 (le_of_le_of_eq hb hbd.2.2.2.symm)
  | none => exact ⟨ha, hb⟩

theorem fightDuelsManVsMan_preserves (next : Nat → Nat × Nat) :
    ∀ (l : List Character) (g : Nat),
      (∀ c ∈ l, c.hit_points ≤ c.max_hit_points) →
      ∀ c ∈ (fightDuelsManVsMan next l g).1, c.hit_points ≤ c.max_hit_points
  | [], g => by simp [fightDuelsManVsMan]
  | [x], g => by
    intro h
    simpa [fightDuelsManVsMan] using h
  | a :: b :: rest, g => by
    intro h c hc
    have ha := h a (by simp)
    have hb := h b (by simp)
    have hpair := fightPair_preserves next a b g ha hb
    simp only [fightDuelsManVsMan, List.mem_cons] at hc
    rcases hc with rfl | rfl | hc'
    · exact hpair.1
    · exact hpair.2
    · exact fightDuelsManVsMan_preserves next rest _
        (fun c' hc' => h c' (by simp [hc'])) c hc'

theorem fightDuels_preserves (next : Nat → Nat × Nat) (cfg : ArenaCfg)
    (l : List Character) (g : Nat)
    (h : ∀ c ∈ l, c.hit_points ≤ c.max_hit_points) :
    ∀ c ∈ (fightDuels next cfg l g).1, c.hit_points ≤ c.max_hit_points := by
  simp only [fightDuels]
  split
  · exact h
  · exact fightDuelsManVsMan_preserves next l g h

/-- C10: a completed fight cycle — recruit, shuffle, duel, cull (twice, via
bring_out_your_dead and clear_fallen), heal — leaves only members that are
alive at exactly their maximum hit points, with that maximum at least 1,
provided every starting member satisfies the current-at-most-maximum
hit-point invariant (which recruitment establishes for new fighters and
which the cycle itself re-establishes).  Culling precedes healing, so no
dead or wounded member survives the cycle. -/
theorem run_one_cycle_heals (next : Nat → Nat × Nat) (cfg : ArenaCfg)
    (l : List Character) (g : Nat)
    (hinv : ∀ c ∈ l, c.hit_points ≤ c.max_hit_points) :
    ∀ c ∈ (runOneCycle next cfg (l, g)).1,
      0 < c.hit_points ∧ c.hit_points = c.max_hit_points ∧ 1 ≤ c.max_hit_points := by
  intro c hc
  have hstep : (runOneCycle next cfg (l, g)).1 =
      healAll charHealFully
        (getLivingMembers Character.toMonster
          (getLivingMembers Character.toMonster
            (fightDuels next cfg
              (shuffleMembers next (recruitNewFighters next cfg l g).1
                (recruitNewFighters next cfg l g).2).1
              (shuffleMembers next (recruitNewFighters next cfg l g).1
                (recruitNewFighters next cfg l g).2).2).1)) := rfl
  rw [hstep] at hc
  have h1 : ∀ c ∈ (recruitNewFighters next cfg l g).1,
      c.hit_points ≤ c.max_hit_points :=
    recruitGo_preserves next cfg _ l g hinv
  have h2 : ∀ c ∈ (shuffleMembers next (recruitNewFighters next cfg l g).1
      (recruitNewFighters next cfg l g).2).1, c.hit_points ≤ c.max_hit_points :=
    fun c hc => h1 c (shuffleGo_subset next _ _ _ c hc)
  have h3 := fightDuels_preserves next cfg
    (shuffleMembers next (recruitNewFighters next cfg l g).1
      (recruitNewFighters next cfg l g).2).1
    (shuffleMembers next (recruitNewFighters next cfg l g).1
      (recruitNewFighters next cfg l g).2).2 h2
  obtain ⟨c0, hc0mem, rfl⟩ := List.mem_map.mp hc
  have hm1 := List.mem_filter.mp hc0mem
  have hm2 := List.mem_filter.mp hm1.1
  have halive : 0 < c0.hit_points := by
    have := hm1.2
    simpa [isAlive] using this
  have hle : c0.hit_points ≤ c0.max_hit_points := h3 c0 hm2.1
  refine ⟨?_, rfl, ?_⟩
  · show 0 < c0.max_hit_points
    omega
  · show 1 ≤ c0.max_hit_points
    omega

/-- Witness for C10: one concrete cycle from an empty population (the
invariant hypothesis holds vacuously) ends fully healed. -/
theorem run_one_cycle_heals_witness :
    ((runOneCycle nextW cfgW ([], 0)).1.all
      (fun c => decide (0 < c.hit_points) && decide (c.hit_points = c.max_hit_points) &&
        decide (1 ≤ c.max_hit_points))) = true := by
  apply List.all_eq_true.mpr
  intro c hc
  have h := run_one_cycle_heals nextW cfgW [] 0 (by simp) c hc
  simp only [Bool.and_eq_true, decide_eq_true_eq]
  exact ⟨⟨h.1, h.2.1⟩, h.2.2⟩
